import Mathlib

/-!
# Verification of the PowerOfAum signed-URL module against its specification

Shallow embedding of the token lifecycle implemented in `src/server.js`:

* the in-memory `urlStore` (a JS `Map` from token strings to bindings) is
  modelled as an association list in insertion order;
* `generateToken` / `getExpiryTimestamp` / `isValidFilePath` / `isValidUserId`
  are translated directly; the two validation regexes are expanded into
  executable character-level predicates;
* the four HTTP handlers that touch the store are modelled as pure functions
  from (store, request parameters, clock) to (response, store):
  `mint` (`GET /api/generate-signed-url`), `redeem` (`GET /media/*`),
  `validateToken` (`GET /api/validate-token`) and `stats` (`GET /api/stats`).

Randomness (`crypto.randomBytes(32)`) is modelled by passing the 32 generated
bytes as an explicit `entropy` argument; the wall clock (`Date.now()`) is
passed explicitly as well (`now` in seconds, i.e. `Math.floor(Date.now()/1000)`,
and `nowMs` in milliseconds where the code stores milliseconds).
Query parameters are `Option String` (`none` = absent), and the JS truthiness
test `!x` on a possibly-missing string parameter is `jsFalsy`.
-/

namespace SignedUrl

/-- A character allowed by the body character class `[a-zA-Z0-9\/\-_.]` of the
`pathRegex` in `isValidFilePath` (`src/server.js`). -/
def isPathSafeChar (c : Char) : Bool :=
  c.isAlpha || c.isDigit || c == '/' || c == '-' || c == '_' || c == '.'

/-- A character allowed by the `userIdRegex` class `[a-zA-Z0-9_]`
(`src/server.js`, `isValidUserId`). -/
def isUserIdChar (c : Char) : Bool :=
  c.isAlpha || c.isDigit || c == '_'

/-- The extension alternation `(mp4|mp3|wav|avi|mov|pdf|jpg|jpeg|png)` of the
`pathRegex` in `src/server.js`. -/
def mediaExtensions : List (List Char) :=
  [['m', 'p', '4'], ['m', 'p', '3'], ['w', 'a', 'v'], ['a', 'v', 'i'],
   ['m', 'o', 'v'], ['p', 'd', 'f'], ['j', 'p', 'g'], ['j', 'p', 'e', 'g'],
   ['p', 'n', 'g']]

/-- ASCII case folding performed by the regex `i` flag: an upper-case Latin
letter is mapped to its lower-case form, every other character is unchanged. -/
def asciiLowerChar (c : Char) : Char :=
  if c.isUpper then Char.ofNat (c.toNat + 32) else c

/-- Matching of the anchored regex `^\/[a-zA-Z0-9\/\-_.]+\.(mp4|...|png)$` with
the `i` flag against a character list: the string starts with `/`, then at
least one body-class character, then a literal `.` followed by one of the
allowed extensions (case-insensitively), with nothing after it.  Because the
regex is anchored at both ends, a match exists exactly when the lower-cased
input ends in `.` + extension, the part between the leading `/` and that
suffix is non-empty, and that part consists of body-class characters. -/
def matchMediaPath (cs : List Char) : Bool :=
  match cs with
  | c :: rest =>
    c == '/' &&
    mediaExtensions.any (fun ext =>
      (('.' :: ext).isSuffixOf (rest.map asciiLowerChar)) &&
      decide (ext.length + 1 < rest.length) &&
      (rest.take (rest.length - (ext.length + 1))).all isPathSafeChar)
  | [] => false

/-- `isValidFilePath` from `src/server.js`:
`/^\/[a-zA-Z0-9\/\-_.]+\.(mp4|mp3|wav|avi|mov|pdf|jpg|jpeg|png)$/i.test(filePath)`. -/
def isValidFilePath (filePath : String) : Bool :=
  matchMediaPath filePath.toList

/-- `isValidUserId` from `src/server.js`: `/^[a-zA-Z0-9_]{3,50}$/.test(userId)`. -/
def isValidUserId (userId : String) : Bool :=
  userId.toList.all isUserIdChar &&
  decide (3 ≤ userId.toList.length) && decide (userId.toList.length ≤ 50)

/-- The record stored in `urlStore` by the mint endpoint:
`{ filePath, userId, expires, createdAt }` (`src/server.js`). -/
structure TokenData where
  filePath : String
  userId : String
  expires : Int
  createdAt : Int
  deriving DecidableEq

/-- The `urlStore` JS `Map`, modelled as an association list in insertion
order (JS `Map` preserves insertion order). -/
abbrev Store := List (String × TokenData)

/-- `urlStore.get(token)`. -/
def storeGet (st : Store) (k : String) : Option TokenData :=
  (st.find? (fun p => p.1 == k)).map Prod.snd

/-- `urlStore.set(token, data)`: replace the entry with this key if present,
otherwise append a new entry. -/
def storeSet (st : Store) (k : String) (v : TokenData) : Store :=
  if st.any (fun p => p.1 == k) then
    st.map (fun p => if p.1 == k then (k, v) else p)
  else
    st ++ [(k, v)]

/-- `urlStore.delete(token)`. -/
def storeDelete (st : Store) (k : String) : Store :=
  st.filter (fun p => !(p.1 == k))

/-- The cleanup loop run by the mint endpoint:
`for ([key, value] of urlStore.entries()) if (value.expires < currentTime) urlStore.delete(key)`. -/
def sweepExpired (st : Store) (now : Int) : Store :=
  st.filter (fun p => !(decide (p.2.expires < now)))

/-- JS truthiness test `!x` applied to an optional string query parameter:
true when the parameter is absent or the empty string. -/
def jsFalsy : Option String → Bool
  | none => true
  | some s => s == ""

/-- Lower-case hex digit for a nibble, as produced by `Buffer.toString('hex')`. -/
def hexDigitChar (n : Nat) : Char :=
  if n < 10 then Char.ofNat (48 + n) else Char.ofNat (87 + n)

/-- Hex encoding of a byte list, high nibble first — `Buffer.toString('hex')`. -/
def hexEncodeChars : List Nat → List Char
  | [] => []
  | b :: bs => hexDigitChar (b / 16) :: hexDigitChar (b % 16) :: hexEncodeChars bs

/-- `generateToken` from `src/server.js`:
`crypto.randomBytes(32).toString('hex')`.  The 32 random bytes produced by
`crypto.randomBytes` are the explicit `entropy` argument. -/
def generateToken (entropy : List Nat) : String :=
  String.mk (hexEncodeChars entropy)

/-- `getExpiryTimestamp` from `src/server.js`:
`Math.floor(Date.now() / 1000) + (2 * 60)`. -/
def getExpiryTimestamp (now : Int) : Int :=
  now + 2 * 60

/-- The four `400` validation failures of `GET /api/generate-signed-url`,
in source order, each with its field-specific message. -/
inductive MintError where
  | missingFilePath
  | missingUserId
  | invalidFilePathFormat
  | invalidUserIdFormat
  deriving DecidableEq

/-- The validation cascade of `GET /api/generate-signed-url`
(`src/server.js`): missing `filePath`, then missing `userId`, then
`isValidFilePath`, then `isValidUserId`; first failure wins. -/
def validateMintInput (filePath userId : Option String) : Option MintError :=
  if jsFalsy filePath then some .missingFilePath
  else if jsFalsy userId then some .missingUserId
  else if !(isValidFilePath (filePath.getD "")) then some .invalidFilePathFormat
  else if !(isValidUserId (userId.getD "")) then some .invalidUserIdFormat
  else none

/-- The success payload of the mint endpoint that the claims are about:
the token and its expiry timestamp. -/
structure MintSuccess where
  token : String
  expiresAt : Int
  deriving DecidableEq

/-- `GET /api/generate-signed-url` (`src/server.js`): validate, generate the
token, compute the expiry, insert the binding into `urlStore`, then run the
cleanup sweep.  On a validation failure the handler returns before any store
mutation. -/
def mint (st : Store) (filePath userId : Option String) (entropy : List Nat)
    (now nowMs : Int) : Except MintError MintSuccess × Store :=
  match validateMintInput filePath userId with
  | some e => (.error e, st)
  | none =>
    let token := generateToken entropy
    let expires := getExpiryTimestamp now
    let st1 := storeSet st token
      ⟨filePath.getD "", userId.getD "", expires, nowMs⟩
    (.ok ⟨token, expires⟩, sweepExpired st1 now)

/-- Value of a character as a hexadecimal digit, if it is one. -/
def hexDigitValue (c : Char) : Option Nat :=
  if c.isDigit then some (c.toNat - 48)
  else if 97 ≤ c.toNat && c.toNat ≤ 102 then some (c.toNat - 87)
  else if 65 ≤ c.toNat && c.toNat ≤ 70 then some (c.toNat - 55)
  else none

/-- JS `parseInt(s)` (radix argument omitted): skip leading whitespace, read
an optional sign, detect an optional `0x`/`0X` prefix (switching to base 16),
then consume the longest prefix of digits of the radix; if that prefix is
empty the result is `NaN`, modelled as `none`. -/
def jsParseInt (s : String) : Option Int :=
  let cs0 := s.toList.dropWhile Char.isWhitespace
  let signVal : Int :=
    match cs0 with
    | '-' :: _ => -1
    | _ => 1
  let cs1 :=
    match cs0 with
    | '-' :: rest => rest
    | '+' :: rest => rest
    | _ => cs0
  let radix : Nat :=
    match cs1 with
    | '0' :: 'x' :: _ => 16
    | '0' :: 'X' :: _ => 16
    | _ => 10
  let cs2 :=
    match cs1 with
    | '0' :: 'x' :: rest => rest
    | '0' :: 'X' :: rest => rest
    | _ => cs1
  let ds := cs2.takeWhile (fun c =>
    match hexDigitValue c with
    | some v => decide (v < radix)
    | none => false)
  if ds.isEmpty then none
  else some (signVal *
    (ds.foldl (fun a c => a * radix + ((hexDigitValue c).getD 0)) 0 : Nat))

/-- Outcomes of the `GET /media/*` redemption endpoint (`src/server.js`):
`400` missing parameters, `401` token not found, `410` expired (the response
reports the expiry it compared against), `403` binding mismatch, and `200`
granted with the reported remaining time.  The remaining time is
`parseInt(expires) - currentTime`, which is `NaN` (modelled `none`) when the
`expires` parameter did not parse. -/
inductive RedeemResult where
  | missingParams
  | tokenNotFound
  | tokenExpired (expiredAt : Int)
  | bindingMismatch
  | granted (remainingTime : Option Int)
  deriving DecidableEq

/-- Core of `GET /media/*` after parameter-presence checking and
`parseInt(expires)` (`src/server.js`): look the token up; compare `now`
against the **parsed query parameter** (`currentTime > expiryTime`; any
comparison with `NaN` is false, so a non-numeric `expires` never triggers the
expired branch), deleting the entry when expired; then compare the stored
binding with the claimed `filePath`/`userId`; otherwise grant. -/
def redeemParsed (st : Store) (token fp uid : String) (pexp : Option Int)
    (now : Int) : RedeemResult × Store :=
  match storeGet st token with
  | none => (.tokenNotFound, st)
  | some td =>
    match pexp with
    | some e =>
      if now > e then (.tokenExpired e, storeDelete st token)
      else if td.filePath != fp || td.userId != uid then (.bindingMismatch, st)
      else (.granted (some (e - now)), st)
    | none =>
      if td.filePath != fp || td.userId != uid then (.bindingMismatch, st)
      else (.granted none, st)

/-- `GET /media/*` (`src/server.js`): `fp` is the requested path with the
leading `/media` stripped; `token`, `expires` and `userId` are the query
parameters, rejected first when absent or empty (`!token || !expires ||
!userId`). -/
def redeem (st : Store) (token expires userId : Option String) (fp : String)
    (now : Int) : RedeemResult × Store :=
  if jsFalsy token || jsFalsy expires || jsFalsy userId then (.missingParams, st)
  else redeemParsed st (token.getD "") fp (userId.getD "")
    (jsParseInt (expires.getD "")) now

/-- Outcomes of `GET /api/validate-token` (`src/server.js`). -/
inductive ValidateResult where
  | missingToken
  | notFound
  | expired
  | valid (filePath userId : String) (expiresAt remainingTime : Int)
  deriving DecidableEq

/-- `GET /api/validate-token` (`src/server.js`): requires only the token;
a stored entry with `expires < currentTime` is deleted and reported expired;
otherwise the full stored binding and the remaining time are returned. -/
def validateToken (st : Store) (token : Option String) (now : Int) :
    ValidateResult × Store :=
  if jsFalsy token then (.missingToken, st)
  else
    match storeGet st (token.getD "") with
    | none => (.notFound, st)
    | some td =>
      if td.expires < now then (.expired, storeDelete st (token.getD ""))
      else (.valid td.filePath td.userId td.expires (td.expires - now), st)

/-- The two numbers reported by `GET /api/stats` (`src/server.js`). -/
structure Stats where
  totalTokensGenerated : Nat
  activeTokens : Nat
  deriving DecidableEq

/-- `GET /api/stats` (`src/server.js`): `totalTokensGenerated` is
`urlStore.size` (the **current** number of entries, swept or not), and
`activeTokens` counts entries with `expires >= currentTime`. -/
def stats (st : Store) (now : Int) : Stats :=
  ⟨st.length, (st.filter (fun p => decide (p.2.expires ≥ now))).length⟩

/-!
## Spec-side predicates

These follow the wording of the specification / claims, to be compared with
the source-derived predicates above.
-/

/-- Modelled from the claim wording for the mint resource check: the resource
"begins with a path separator, only path-safe characters, ends with an
extension in {mp4, mp3, wav, avi, mov, pdf, jpg, jpeg, png}
case-insensitively" — with "ends with an extension" read as ending in `.`
followed by the extension.  Note this says nothing about the string having
any character between the leading separator and the `.extension` suffix. -/
def specMediaPathShape : List Char → Bool
  | c :: t =>
    c == '/' && (c :: t).all isPathSafeChar &&
    mediaExtensions.any (fun ext =>
      ('.' :: ext).isSuffixOf ((c :: t).map asciiLowerChar))
  | [] => false

/-- The claim's media-path shape amended with the one condition the
counterexample forces: at least one character strictly between the leading
separator and the final `.extension` suffix (`ext.length + 1 < t.length`,
where `t` is the string without its leading separator). -/
def amendedMediaPathShape : List Char → Bool
  | c :: t =>
    c == '/' && (c :: t).all isPathSafeChar &&
    mediaExtensions.any (fun ext =>
      ('.' :: ext).isSuffixOf ((c :: t).map asciiLowerChar) &&
      decide (ext.length + 1 < t.length))
  | [] => false

/-- The claim wording for the requester check: matches `[A-Za-z0-9_]{3,50}`. -/
def specUserIdShape (s : String) : Bool :=
  decide (3 ≤ s.toList.length) && decide (s.toList.length ≤ 50) &&
  s.toList.all isUserIdChar

/-!
## Helper lemmas
-/

theorem isPathSafeChar_of_asciiLower {c : Char}
    (h : isPathSafeChar (asciiLowerChar c) = true) : isPathSafeChar c = true := by
  by_cases hu : c.isUpper = true
  · simp [isPathSafeChar, Char.isAlpha, hu]
  · simpa [asciiLowerChar, hu] using h

theorem mediaExtensions_suffix_safe :
    mediaExtensions.all (fun ext => ('.' :: ext).all isPathSafeChar) = true := by
  decide

theorem asciiLowerChar_slash : asciiLowerChar '/' = '/' := by decide

/-- The claim's media-path shape, amended with the non-empty-body condition,
agrees everywhere with the source regex `pathRegex`. -/
theorem amendedMediaPathShape_eq_matchMediaPath (cs : List Char) :
    amendedMediaPathShape cs = matchMediaPath cs := by
  cases cs with
  | nil => rfl
  | cons c t =>
    by_cases hc : c = '/'
    · subst hc
      rw [Bool.eq_iff_iff]
      simp only [amendedMediaPathShape, matchMediaPath, Bool.and_eq_true,
        List.any_eq_true, List.all_eq_true, List.isSuffixOf_iff_suffix,
        decide_eq_true_eq, beq_self_eq_true, true_and, List.map_cons,
        asciiLowerChar_slash, and_assoc]
      constructor
      · rintro ⟨hall, ext, hmem, hsuff, hlen⟩
        refine ⟨ext, hmem, ?_, hlen, ?_⟩
        · rcases List.suffix_cons_iff.mp hsuff with heq | hs
          · exfalso
            injection heq with h1 h2
            exact absurd h1 (by decide)
          · exact hs
        · intro x hx
          exact hall x (List.mem_cons_of_mem _ (List.mem_of_mem_take hx))
      · rintro ⟨ext, hmem, hsuff, hlen, hbody⟩
        have hextsafe : ∀ y ∈ '.' :: ext, isPathSafeChar y = true := by
          have := List.all_eq_true.mp mediaExtensions_suffix_safe _ hmem
          exact fun y hy => List.all_eq_true.mp this y hy
        refine ⟨?_, ext, hmem, List.suffix_cons_iff.mpr (Or.inr hsuff), hlen⟩
        intro x hx
        rcases List.mem_cons.mp hx with hx0 | hxt
        · subst hx0; decide
        · have hsplit := List.take_append_drop (t.length - (ext.length + 1)) t
          rcases List.mem_append.mp (hsplit ▸ hxt) with hL | hR
          · exact hbody x hL
          · have hdropmap :
                (t.drop (t.length - (ext.length + 1))).map asciiLowerChar
                  = '.' :: ext := by
              have hd := List.suffix_iff_eq_drop.mp hsuff
              rw [List.map_drop]
              rw [List.length_map] at hd
              simpa using hd.symm
            have : asciiLowerChar x ∈ ('.' :: ext) := by
              rw [← hdropmap]
              exact List.mem_map_of_mem _ hR
            exact isPathSafeChar_of_asciiLower (hextsafe _ this)
    · have hcb : (c == '/') = false := by
        simpa using hc
      simp [amendedMediaPathShape, matchMediaPath, hcb]

/-- The claim wording of the requester identifier check agrees with the
source regex `userIdRegex`. -/
theorem specUserIdShape_eq_isValidUserId (s : String) :
    specUserIdShape s = isValidUserId s := by
  rw [Bool.eq_iff_iff]
  simp only [specUserIdShape, isValidUserId, Bool.and_eq_true]
  tauto

/-!
### Store lemmas
-/

theorem storeFind_cons_pos (k : String) (x : String × TokenData) (l : Store)
    (h : (x.1 == k) = true) :
    List.find? (fun p => p.1 == k) (x :: l) = some x := by
  rw [List.find?_cons, h]

theorem storeFind_cons_neg (k : String) (x : String × TokenData) (l : Store)
    (h : (x.1 == k) = false) :
    List.find? (fun p => p.1 == k) (x :: l) = List.find? (fun p => p.1 == k) l := by
  rw [List.find?_cons, h]

theorem find?_map_replace (st : Store) (k : String) (v : TokenData)
    (h : st.any (fun p => p.1 == k) = true) :
    (st.map (fun p => if p.1 == k then (k, v) else p)).find?
      (fun p => p.1 == k) = some (k, v) := by
  induction st with
  | nil => simp at h
  | cons x xs ih =>
    by_cases hx : (x.1 == k) = true
    · rw [List.map_cons, if_pos hx, storeFind_cons_pos]
      simp
    · have hx' : (x.1 == k) = false := by rwa [Bool.not_eq_true] at hx
      rw [List.map_cons, if_neg hx, storeFind_cons_neg _ _ _ hx']
      apply ih
      simp only [List.any_cons, Bool.or_eq_true] at h
      rcases h with h | h
      · exact absurd h hx
      · exact h

theorem find?_append_single (st : Store) (k : String) (v : TokenData)
    (h : st.any (fun p => p.1 == k) = false) :
    (st ++ [(k, v)]).find? (fun p => p.1 == k) = some (k, v) := by
  induction st with
  | nil =>
    rw [List.nil_append, storeFind_cons_pos]
    simp
  | cons x xs ih =>
    simp only [List.any_cons, Bool.or_eq_false_iff] at h
    rw [List.cons_append, storeFind_cons_neg _ _ _ h.1]
    exact ih h.2

theorem storeGet_storeSet_self (st : Store) (k : String) (v : TokenData) :
    storeGet (storeSet st k v) k = some v := by
  unfold storeGet storeSet
  by_cases h : st.any (fun p => p.1 == k) = true
  · rw [if_pos h, find?_map_replace st k v h]
    rfl
  · have h' : st.any (fun p => p.1 == k) = false := by rwa [Bool.not_eq_true] at h
    rw [if_neg h, find?_append_single st k v h']
    rfl

theorem find?_filter_of_find? {α} (p q : α → Bool) (l : List α) (a : α)
    (h : l.find? p = some a) (hq : q a = true) :
    (l.filter q).find? p = some a := by
  induction l with
  | nil => simp at h
  | cons x xs ih =>
    by_cases hx : p x = true
    · rw [List.find?_cons_of_pos _ hx] at h
      cases h
      simp [List.filter_cons, hq, List.find?_cons_of_pos _ hx]
    · rw [List.find?_cons_of_neg _ hx] at h
      by_cases hqx : q x = true
      · simp [List.filter_cons, hqx, List.find?_cons_of_neg _ hx, ih h]
      · simp [List.filter_cons, hqx, ih h]

theorem storeGet_sweepExpired (st : Store) (k : String) (v : TokenData)
    (now : Int) (h : storeGet st k = some v) (hv : ¬ v.expires < now) :
    storeGet (sweepExpired st now) k = some v := by
  unfold storeGet at h
  rcases hfind : st.find? (fun p => p.1 == k) with _ | a
  · rw [hfind] at h
    exact absurd h (by simp)
  · rw [hfind] at h
    have ha : a.2 = v := by simpa using h
    have hkeep : (!(decide (a.2.expires < now))) = true := by
      simp [ha, hv]
    have hf := find?_filter_of_find? (fun p => p.1 == k)
      (fun p => !(decide (p.2.expires < now))) st a hfind hkeep
    unfold storeGet sweepExpired
    rw [hf]
    simp [ha]

/-!
### Unfolding lemmas for the handlers
-/

theorem redeem_eq_redeemParsed (st : Store) (tok es uid fp : String) (now : Int)
    (htok : tok ≠ "") (hes : es ≠ "") (huid : uid ≠ "") :
    redeem st (some tok) (some es) (some uid) fp now
      = redeemParsed st tok fp uid (jsParseInt es) now := by
  have h1 : (tok == "") = false := by simpa using htok
  have h2 : (es == "") = false := by simpa using hes
  have h3 : (uid == "") = false := by simpa using huid
  simp [redeem, jsFalsy, h1, h2, h3]

theorem redeemParsed_granted (st : Store) (tok fp uid : String) (td : TokenData)
    (e now : Int) (hget : storeGet st tok = some td)
    (hfp : td.filePath = fp) (huid : td.userId = uid) (hle : now ≤ e) :
    redeemParsed st tok fp uid (some e) now = (.granted (some (e - now)), st) := by
  unfold redeemParsed
  rw [hget]
  have hng : ¬ now > e := by omega
  have hb : (td.filePath != fp || td.userId != uid) = false := by
    simp [hfp, huid]
  simp [hng, hb]

theorem redeemParsed_granted_nan (st : Store) (tok fp uid : String)
    (td : TokenData) (now : Int) (hget : storeGet st tok = some td)
    (hfp : td.filePath = fp) (huid : td.userId = uid) :
    redeemParsed st tok fp uid none now = (.granted none, st) := by
  unfold redeemParsed
  rw [hget]
  have hb : (td.filePath != fp || td.userId != uid) = false := by
    simp [hfp, huid]
  simp [hb]

theorem redeemParsed_mismatch (st : Store) (tok fp uid : String) (td : TokenData)
    (e now : Int) (hget : storeGet st tok = some td) (hle : now ≤ e)
    (hmis : td.filePath ≠ fp ∨ td.userId ≠ uid) :
    redeemParsed st tok fp uid (some e) now = (.bindingMismatch, st) := by
  unfold redeemParsed
  rw [hget]
  have hng : ¬ now > e := by omega
  have hb : (td.filePath != fp || td.userId != uid) = true := by
    rcases hmis with h | h <;> simp [h]
  simp [hng, hb]

theorem validateMintInput_none_parts (filePath userId : Option String)
    (h : validateMintInput filePath userId = none) :
    jsFalsy filePath = false ∧ jsFalsy userId = false ∧
    isValidFilePath (filePath.getD "") = true ∧
    isValidUserId (userId.getD "") = true := by
  unfold validateMintInput at h
  by_cases h1 : jsFalsy filePath = true
  · simp [h1] at h
  · by_cases h2 : jsFalsy userId = true
    · simp [h1, h2] at h
    · by_cases h3 : isValidFilePath (filePath.getD "") = true
      · by_cases h4 : isValidUserId (userId.getD "") = true
        · exact ⟨by simpa using h1, by simpa using h2, h3, h4⟩
        · simp [h1, h2, h3, h4] at h
      · simp [h1, h2, h3] at h

theorem mint_ok (st : Store) (filePath userId : Option String)
    (entropy : List Nat) (now nowMs : Int)
    (hval : validateMintInput filePath userId = none) :
    mint st filePath userId entropy now nowMs =
      (.ok ⟨generateToken entropy, now + 120⟩,
       sweepExpired
         (storeSet st (generateToken entropy)
           ⟨filePath.getD "", userId.getD "", now + 120, nowMs⟩) now) := by
  unfold mint
  rw [hval]
  norm_num [getExpiryTimestamp]

theorem mint_err (st : Store) (filePath userId : Option String)
    (entropy : List Nat) (now nowMs : Int) (e : MintError)
    (hval : validateMintInput filePath userId = some e) :
    mint st filePath userId entropy now nowMs = (.error e, st) := by
  unfold mint
  rw [hval]

/-!
### Token encoding lemmas
-/

theorem hexEncodeChars_length (l : List Nat) :
    (hexEncodeChars l).length = 2 * l.length := by
  induction l with
  | nil => rfl
  | cons b bs ih =>
    simp only [hexEncodeChars, List.length_cons, ih]
    omega

theorem generateToken_length (l : List Nat) :
    (generateToken l).length = 2 * l.length := by
  simpa [generateToken, String.length] using hexEncodeChars_length l

theorem generateToken_ne_empty (l : List Nat) (h : l ≠ []) :
    generateToken l ≠ "" := by
  intro hcontra
  apply h
  rcases l with _ | ⟨b, bs⟩
  · rfl
  · exfalso
    have : (generateToken (b :: bs)).length = ("" : String).length := by
      rw [hcontra]
    rw [generateToken_length] at this
    simp [String.length] at this

theorem hexDigitChar_inj :
    ∀ m, m < 16 → ∀ n, n < 16 → hexDigitChar m = hexDigitChar n → m = n := by
  decide

theorem hexEncodeChars_inj :
    ∀ (l1 l2 : List Nat), (∀ b ∈ l1, b < 256) → (∀ b ∈ l2, b < 256) →
      hexEncodeChars l1 = hexEncodeChars l2 → l1 = l2
  | [], [], _, _, _ => rfl
  | [], b :: bs, _, _, h => by simp [hexEncodeChars] at h
  | a :: as, [], _, _, h => by simp [hexEncodeChars] at h
  | a :: as, b :: bs, h1, h2, h => by
    have ha : a < 256 := h1 a (List.mem_cons_self a as)
    have hb : b < 256 := h2 b (List.mem_cons_self b bs)
    simp only [hexEncodeChars, List.cons.injEq] at h
    obtain ⟨hd1, hd2, htail⟩ := h
    have e1 : a / 16 = b / 16 :=
      hexDigitChar_inj _ (by omega) _ (by omega) hd1
    have e2 : a % 16 = b % 16 :=
      hexDigitChar_inj _ (by omega) _ (by omega) hd2
    have hab : a = b := by omega
    have : as = bs :=
      hexEncodeChars_inj as bs
        (fun x hx => h1 x (List.mem_cons_of_mem _ hx))
        (fun x hx => h2 x (List.mem_cons_of_mem _ hx)) htail
    rw [hab, this]

theorem generateToken_inj (l1 l2 : List Nat)
    (h1 : ∀ b ∈ l1, b < 256) (h2 : ∀ b ∈ l2, b < 256)
    (h : generateToken l1 = generateToken l2) : l1 = l2 := by
  apply hexEncodeChars_inj l1 l2 h1 h2
  injection h

/-!
## Claim theorems
-/

/-- C1: the claim says that redeeming a stored token at `now` strictly greater
than the stored binding's `expiresAt` yields `Rejected(TokenExpired)`, evicts
the entry, and makes a subsequent redeem yield `Rejected(TokenNotFound)`.
The code instead compares `now` with `parseInt` of the caller-supplied
`expires` query parameter: at `now = 200`, with a stored binding whose
`expiresAt = 100` and a matching claimed binding, supplying `expires=9999`
yields `Granted`, leaves the store unchanged, and a later redeem at
`now = 300` is granted again. -/
theorem claim1_code_divergence :
    (redeem [("tok1", ⟨"/v.mp4", "user1", 100, 0⟩)]
        (some "tok1") (some "9999") (some "user1") "/v.mp4" 200)
      = (.granted (some 9799), [("tok1", ⟨"/v.mp4", "user1", 100, 0⟩)]) ∧
    (redeem [("tok1", ⟨"/v.mp4", "user1", 100, 0⟩)]
        (some "tok1") (some "9999") (some "user1") "/v.mp4" 300).1
      = .granted (some 9699) := by
  decide

/-- C2: in the media redemption operation the expiry decision and the
reported remaining time come from `parseInt` of the caller-supplied `expires`
query parameter, not from the stored entry: for any stored token whose
binding matches the claimed `filePath` and `userId`, access is `Granted`
whenever the supplied `expires` parses to a time not less than `now` or
parses to `NaN`, regardless of the stored `expiresAt`. -/
theorem claim2_redeem_uses_supplied_expires
    (st : Store) (tok es uid fp : String) (td : TokenData) (now : Int)
    (htok : tok ≠ "") (hes : es ≠ "") (huid : uid ≠ "")
    (hget : storeGet st tok = some td)
    (hfp : td.filePath = fp) (huidm : td.userId = uid)
    (hexp : jsParseInt es = none ∨ ∃ e, jsParseInt es = some e ∧ now ≤ e) :
    ∃ r, (redeem st (some tok) (some es) (some uid) fp now).1
      = RedeemResult.granted r := by
  rw [redeem_eq_redeemParsed st tok es uid fp now htok hes huid]
  rcases hexp with hn | ⟨e, he, hle⟩
  · rw [hn, redeemParsed_granted_nan st tok fp uid td now hget hfp huidm]
    exact ⟨none, rfl⟩
  · rw [he, redeemParsed_granted st tok fp uid td e now hget hfp huidm hle]
    exact ⟨some (e - now), rfl⟩

/-- Witness for C2: a stored token with a matching binding is granted even
though the supplied `expires` parameter is the non-numeric string `junk`
(which `parseInt` turns into `NaN`). -/
theorem claim2_witness :
    ∃ r, (redeem [("t2", ⟨"/b.mp3", "bob42", 50, 0⟩)]
        (some "t2") (some "junk") (some "bob42") "/b.mp3" 40).1
      = RedeemResult.granted r :=
  claim2_redeem_uses_supplied_expires
    [("t2", ⟨"/b.mp3", "bob42", 50, 0⟩)] "t2" "junk" "bob42" "/b.mp3"
    ⟨"/b.mp3", "bob42", 50, 0⟩ 40
    (by decide) (by decide) (by decide) (by decide) rfl rfl
    (Or.inl (by decide))

/-- C3: a redemption request (with all parameters present and an expiry
parameter that passes the expiry comparison) whose claimed resource or
requester differs from the stored binding is rejected with
`BindingMismatch`; the entry is not evicted — the store is returned
unchanged — and the token remains redeemable afterwards with the correct
binding. -/
theorem claim3_binding_mismatch
    (st : Store) (tok es fp uid : String) (td : TokenData) (e now : Int)
    (htok : tok ≠ "") (hes : es ≠ "") (huid : uid ≠ "")
    (hstored_uid : td.userId ≠ "")
    (hget : storeGet st tok = some td)
    (hparse : jsParseInt es = some e) (hlive : now ≤ e)
    (hmis : td.filePath ≠ fp ∨ td.userId ≠ uid) :
    redeem st (some tok) (some es) (some uid) fp now = (.bindingMismatch, st) ∧
    ∀ es2 e2 now2, es2 ≠ "" → jsParseInt es2 = some e2 → now2 ≤ e2 →
      (redeem st (some tok) (some es2) (some td.userId) td.filePath now2).1
        = RedeemResult.granted (some (e2 - now2)) := by
  constructor
  · rw [redeem_eq_redeemParsed st tok es uid fp now htok hes huid, hparse,
      redeemParsed_mismatch st tok fp uid td e now hget hlive hmis]
  · intro es2 e2 now2 hes2 hp2 hl2
    rw [redeem_eq_redeemParsed st tok es2 td.userId td.filePath now2 htok hes2
        hstored_uid, hp2,
      redeemParsed_granted st tok td.filePath td.userId td e2 now2 hget rfl rfl hl2]

/-- Witness for C3: a redeem with the wrong requester is rejected with
`BindingMismatch` and leaves the store unchanged, and a redeem with the
stored binding is then granted. -/
theorem claim3_witness :
    redeem [("tk3", ⟨"/c.wav", "alice99", 1000, 0⟩)]
        (some "tk3") (some "1000") (some "mallory") "/c.wav" 500
      = (.bindingMismatch, [("tk3", ⟨"/c.wav", "alice99", 1000, 0⟩)]) ∧
    (redeem [("tk3", ⟨"/c.wav", "alice99", 1000, 0⟩)]
        (some "tk3") (some "1000") (some "alice99") "/c.wav" 500).1
      = RedeemResult.granted (some (1000 - 500)) := by
  have h := claim3_binding_mismatch
    [("tk3", ⟨"/c.wav", "alice99", 1000, 0⟩)] "tk3" "1000" "/c.wav" "mallory"
    ⟨"/c.wav", "alice99", 1000, 0⟩ 1000 500
    (by decide) (by decide) (by decide) (by decide) rfl (by decide) (by decide)
    (Or.inr (by decide))
  exact ⟨h.1, h.2 "1000" 1000 500 (by decide) (by decide) (by decide)⟩

/-- C4: the claim says `stats` reports a monotonic lifetime count of store
insertions (`totalEverIssued`), independent of evictions.  The code returns
`urlStore.size` instead: after two mints at time 0 the reported total is 2,
and after a third mint at time 200 (whose sweep removes the two expired
entries) the reported total drops to 1, although three insertions have
happened. -/
theorem claim4_stats_total_not_monotonic :
    (let st1 := (mint [] (some "/videos/intro.mp4") (some "USER_001")
        (List.replicate 32 0) 0 0).2
     let st2 := (mint st1 (some "/videos/intro.mp4") (some "USER_002")
        (List.replicate 32 1) 0 0).2
     let st3 := (mint st2 (some "/videos/intro.mp4") (some "USER_003")
        (List.replicate 32 2) 200 200000).2
     (stats st2 0).totalTokensGenerated = 2 ∧
     (stats st3 200).totalTokensGenerated = 1) := by
  decide

/-- C5: the claim says every read operation treats an entry whose
`expiresAt` lies in the past as absent or inactive.  Token validation and
stats do (shown at the failing instant), but the media redemption read
grants access against an entry with stored `expiresAt = 100` at
`now = 200` when the caller supplies `expires=10000`. -/
theorem claim5_expired_entry_grants :
    (redeem [("tkn5", ⟨"/a.mp4", "usr05", 100, 0⟩)]
        (some "tkn5") (some "10000") (some "usr05") "/a.mp4" 200).1
      = .granted (some 9800) ∧
    (validateToken [("tkn5", ⟨"/a.mp4", "usr05", 100, 0⟩)] (some "tkn5") 200).1
      = .expired ∧
    (stats [("tkn5", ⟨"/a.mp4", "usr05", 100, 0⟩)] 200).activeTokens = 0 := by
  decide

/-- Counterexample for C6: the string `/.mp4` satisfies the claim's
description of the media-path shape (begins with a path separator, only
path-safe characters, ends with the extension `mp4` case-insensitively),
and `abc` is a valid requester, yet the code's `pathRegex` rejects it —
the regex requires at least one body character between the leading `/` and
the `.mp4` suffix — so mint fails with the resource-format error where the
claim predicts that all four checks pass. -/
theorem claim6_counterexample :
    specMediaPathShape "/.mp4".toList = true ∧
    isValidUserId "abc" = true ∧
    isValidFilePath "/.mp4" = false ∧
    validateMintInput (some "/.mp4") (some "abc")
      = some MintError.invalidFilePathFormat := by
  decide

/-- C6 (amended): mint applies its four validation checks in order with the
first failure winning — missing resource, then missing requester, then the
resource not matching the media-path shape (begins with a path separator,
only path-safe characters, **at least one character between the separator
and the extension suffix**, ends with `.` plus an extension in
{mp4, mp3, wav, avi, mov, pdf, jpg, jpeg, png} case-insensitively), then
the requester not matching `[A-Za-z0-9_]{3,50}` — each failure reported
with its field-specific reason. -/
theorem claim6_amended (filePath userId : Option String) :
    (validateMintInput filePath userId = some .missingFilePath ↔
      jsFalsy filePath = true) ∧
    (validateMintInput filePath userId = some .missingUserId ↔
      jsFalsy filePath = false ∧ jsFalsy userId = true) ∧
    (validateMintInput filePath userId = some .invalidFilePathFormat ↔
      jsFalsy filePath = false ∧ jsFalsy userId = false ∧
      amendedMediaPathShape (filePath.getD "").toList = false) ∧
    (validateMintInput filePath userId = some .invalidUserIdFormat ↔
      jsFalsy filePath = false ∧ jsFalsy userId = false ∧
      amendedMediaPathShape (filePath.getD "").toList = true ∧
      specUserIdShape (userId.getD "") = false) ∧
    (validateMintInput filePath userId = none ↔
      jsFalsy filePath = false ∧ jsFalsy userId = false ∧
      amendedMediaPathShape (filePath.getD "").toList = true ∧
      specUserIdShape (userId.getD "") = true) := by
  have hA : amendedMediaPathShape (filePath.getD "").data
      = isValidFilePath (filePath.getD "") :=
    amendedMediaPathShape_eq_matchMediaPath _
  have hU : specUserIdShape (userId.getD "") = isValidUserId (userId.getD "") :=
    specUserIdShape_eq_isValidUserId _
  unfold validateMintInput
  cases h1 : jsFalsy filePath <;> cases h2 : jsFalsy userId <;>
    cases h3 : isValidFilePath (filePath.getD "") <;>
    cases h4 : isValidUserId (userId.getD "") <;>
    simp [h1, h2, h3, h4, hA, hU]

/-- Witness for C6 (amended): a well-formed resource with a two-character
requester fails exactly the fourth check. -/
theorem claim6_witness :
    validateMintInput (some "/videos/intro.mp4") (some "ab")
      = some MintError.invalidUserIdFormat :=
  ((claim6_amended (some "/videos/intro.mp4") (some "ab")).2.2.2.1).mpr
    ⟨by decide, by decide, by decide, by decide⟩

/-- C7: when mint's validation fails, the handler returns the field-specific
error before any store mutation: the store it returns is exactly the store
it was given (no insertion, no sweep, size unchanged). -/
theorem claim7_invalid_mint_leaves_store
    (st : Store) (filePath userId : Option String) (entropy : List Nat)
    (now nowMs : Int) (e : MintError)
    (hval : validateMintInput filePath userId = some e) :
    mint st filePath userId entropy now nowMs = (.error e, st) :=
  mint_err st filePath userId entropy now nowMs e hval

/-- Witness for C7: a malformed resource leaves a non-empty store untouched. -/
theorem claim7_witness :
    mint [("k7", ⟨"/d.pdf", "carol77", 10, 1⟩)] (some "bad-path")
        (some "carol77") [7] 99 99000
      = (.error .invalidFilePathFormat, [("k7", ⟨"/d.pdf", "carol77", 10, 1⟩)]) :=
  claim7_invalid_mint_leaves_store _ _ _ _ _ _ _ (by decide)

/-- C8: for a valid input pair, mint succeeds with
`expiresAt = issuedAt + 120` and a token that is the hex encoding of the 32
random bytes — a fixed-length 64-character string — and the encoding is
injective on 32-byte inputs, so the token carries the full 256 bits of
entropy. -/
theorem claim8_mint_token_shape
    (st : Store) (filePath userId : Option String) (entropy : List Nat)
    (now nowMs : Int)
    (hval : validateMintInput filePath userId = none)
    (hlen : entropy.length = 32) (hbytes : ∀ b ∈ entropy, b < 256) :
    (mint st filePath userId entropy now nowMs).1
      = .ok ⟨generateToken entropy, now + 120⟩ ∧
    (generateToken entropy).length = 64 ∧
    (∀ l2, l2.length = 32 → (∀ b ∈ l2, b < 256) →
      generateToken l2 = generateToken entropy → l2 = entropy) := by
  refine ⟨?_, ?_, ?_⟩
  · rw [mint_ok st filePath userId entropy now nowMs hval]
  · rw [generateToken_length, hlen]
  · intro l2 hl2 hb2 heq
    exact generateToken_inj l2 entropy hb2 hbytes heq

/-- Witness for C8: minting with the all-zero 32-byte entropy at time 5. -/
theorem claim8_witness :
    (mint [] (some "/videos/intro.mp4") (some "USER_001")
        (List.replicate 32 0) 5 5000).1
      = .ok ⟨generateToken (List.replicate 32 0), 5 + 120⟩ ∧
    (generateToken (List.replicate 32 0)).length = 64 := by
  have h := claim8_mint_token_shape [] (some "/videos/intro.mp4")
    (some "USER_001") (List.replicate 32 0) 5 5000
    (by decide) (by decide) (by decide)
  exact ⟨h.1, h.2.1⟩

/-- C9: a successful mint followed immediately (same clock value) by a
redeem of the returned token against the same binding — with the signed
URL's own `expires` value as the `expires` parameter — is granted with a
remaining time in the interval `(0, 120]`. -/
theorem claim9_round_trip
    (st : Store) (R U es : String) (entropy : List Nat) (now nowMs : Int)
    (hval : validateMintInput (some R) (some U) = none)
    (hne : entropy ≠ []) (hes : es ≠ "")
    (hparse : jsParseInt es = some (now + 120)) :
    ∃ r, (redeem (mint st (some R) (some U) entropy now nowMs).2
        (some (generateToken entropy)) (some es) (some U) R now).1
      = RedeemResult.granted (some r) ∧ 0 < r ∧ r ≤ 120 := by
  obtain ⟨hfp, huid, hvf, hvu⟩ := validateMintInput_none_parts _ _ hval
  have hUne : U ≠ "" := by
    intro h
    rw [h] at huid
    simp [jsFalsy] at huid
  have htokne : generateToken entropy ≠ "" := generateToken_ne_empty entropy hne
  rw [mint_ok st (some R) (some U) entropy now nowMs hval]
  have hget0 : storeGet
      (storeSet st (generateToken entropy)
        ⟨(some R).getD "", (some U).getD "", now + 120, nowMs⟩)
      (generateToken entropy)
      = some ⟨R, U, now + 120, nowMs⟩ := by
    simpa using storeGet_storeSet_self st (generateToken entropy) _
  have hget : storeGet
      (sweepExpired
        (storeSet st (generateToken entropy)
          ⟨(some R).getD "", (some U).getD "", now + 120, nowMs⟩) now)
      (generateToken entropy)
      = some ⟨R, U, now + 120, nowMs⟩ :=
    storeGet_sweepExpired _ _ _ now hget0 (by dsimp; omega)
  rw [redeem_eq_redeemParsed _ _ _ _ _ _ htokne hes hUne, hparse,
    redeemParsed_granted _ _ _ _ _ _ _ hget rfl rfl (by omega)]
  exact ⟨now + 120 - now, rfl, by omega, by omega⟩

/-- Witness for C9: mint at time 0 and redeem at time 0 with `expires=120`
yields a granted access with remaining time in `(0, 120]`. -/
theorem claim9_witness :
    ∃ r, (redeem (mint [] (some "/videos/intro.mp4") (some "USER_001")
          (List.replicate 32 0) 0 0).2
        (some (generateToken (List.replicate 32 0))) (some "120")
        (some "USER_001") "/videos/intro.mp4" 0).1
      = RedeemResult.granted (some r) ∧ 0 < r ∧ r ≤ 120 :=
  claim9_round_trip [] "/videos/intro.mp4" "USER_001" "120"
    (List.replicate 32 0) 0 0 (by decide) (by decide) (by decide) (by decide)

/-- C10: for a stored, unexpired token, the token-validation endpoint
returns `valid` together with the full stored binding — `filePath`,
`userId`, `expiresAt` and the remaining time — to any caller that presents
only the token string; its input is the token alone, so no claimed resource
or requester is required and no binding comparison occurs. -/
theorem claim10_validate_full_binding
    (st : Store) (tok : String) (td : TokenData) (now : Int)
    (htok : tok ≠ "") (hget : storeGet st tok = some td)
    (hlive : ¬ td.expires < now) :
    validateToken st (some tok) now
      = (.valid td.filePath td.userId td.expires (td.expires - now), st) := by
  unfold validateToken
  have h1 : jsFalsy (some tok) = false := by simpa [jsFalsy] using htok
  rw [h1]
  simp only [Bool.false_eq_true, if_false, Option.getD_some]
  rw [hget]
  simp [hlive]

/-- Witness for C10: a stored token queried 77 seconds before expiry. -/
theorem claim10_witness :
    validateToken [("tk10", ⟨"/e.png", "dave1234", 777, 3⟩)] (some "tk10") 700
      = (.valid "/e.png" "dave1234" 777 (777 - 700),
         [("tk10", ⟨"/e.png", "dave1234", 777, 3⟩)]) :=
  claim10_validate_full_binding _ "tk10" ⟨"/e.png", "dave1234", 777, 3⟩ 700
    (by decide) (by decide) (by decide)

end SignedUrl

